import Mathlib

/-!
Verification of the md2pdf command-line tool (Go, `main.go`).

The program is modelled by a shallow embedding: each in-repo function is
translated into a Lean definition over `String` / `List Char`, the
filesystem and the external renderers are an explicit environment record,
and the observable effects of a run are a trace of filesystem operations.
-/

namespace Md2Pdf

/-- Model of Go `filepath.Ext`: walk the path from the end; stop at a path
separator; the extension is the suffix beginning at the last dot of the
final path element, or empty if there is none.  The first argument is the
reversed character list of the path, the second the (original-order)
suffix accumulated so far. -/
def extGo : List Char → List Char → List Char
  | [], _ => []
  | c :: rest, acc =>
    if c = '/' then []
    else if c = '.' then c :: acc
    else extGo rest (c :: acc)

/-- `filepath.Ext` on strings. -/
def extS (p : String) : String := ⟨extGo p.data.reverse []⟩

/-- Model of Go `strings.TrimSuffix` on character lists: if `suf` is a
suffix of `s`, drop it; otherwise return `s` unchanged. -/
def trimSuffixL (s suf : List Char) : List Char :=
  if suf.length ≤ s.length ∧ s.drop (s.length - suf.length) = suf then
    s.take (s.length - suf.length)
  else s

/-- `strings.TrimSuffix` on strings. -/
def trimSuffixS (s suf : String) : String := ⟨trimSuffixL s.data suf.data⟩

/-- `main.go` line 48: the default output path is the input path with its
final extension removed and `".pdf"` appended. -/
def deriveOutput (input : String) : String :=
  trimSuffixS input (extS input) ++ ".pdf"

/-- The configuration record filled in by flag parsing (`Config` in
`main.go`).  The base font size is a rational, standing in for Go's
`float64` (all sizes involved are exact small decimals). -/
structure Config where
  InputFile : String
  OutputFile : String
  PageSize : String
  FontSize : ℚ
  ShowHelp : Bool
  ShowVer : Bool

/-- `main.go` lines 47-49: fill in the output path when it was left empty. -/
def resolveOutput (cfg : Config) : Config :=
  if cfg.OutputFile = "" then
    { cfg with OutputFile := deriveOutput cfg.InputFile }
  else cfg

/- Helper lemmas about the path functions. -/

theorem extGo_append_dot (l : List Char) (rest acc : List Char)
    (h : ∀ c ∈ l, c ≠ '.' ∧ c ≠ '/') :
    extGo (l ++ '.' :: rest) acc = '.' :: (l.reverse ++ acc) := by
  induction l generalizing acc with
  | nil => simp [extGo]
  | cons c t ih =>
    have hc := h c (by simp)
    have ht : ∀ x ∈ t, x ≠ '.' ∧ x ≠ '/' := fun x hx => h x (by simp [hx])
    simp only [List.cons_append, extGo, if_neg hc.2, if_neg hc.1, List.append_eq]
    rw [ih _ ht]
    simp

theorem trimSuffixL_append (t s : List Char) : trimSuffixL (t ++ s) s = t := by
  unfold trimSuffixL
  have hlen : (t ++ s).length - s.length = t.length := by
    simp [List.length_append]
  rw [hlen]
  rw [if_pos ⟨by simp [List.length_append], by rw [List.drop_left]⟩]
  exact List.take_left t s

/-- If the extension part contains no dot and no separator, `extS` finds
exactly it. -/
theorem extS_eq (stem e : String) (hd : '.' ∉ e.data) (hs : '/' ∉ e.data) :
    extS (stem ++ "." ++ e) = ⟨'.' :: e.data⟩ := by
  unfold extS
  have hdata : (stem ++ "." ++ e).data = stem.data ++ '.' :: e.data := by
    simp [String.data_append]
  rw [hdata]
  have hrev : (stem.data ++ '.' :: e.data).reverse
      = e.data.reverse ++ '.' :: stem.data.reverse := by
    simp
  rw [hrev, extGo_append_dot]
  · simp
  · intro c hc
    rw [List.mem_reverse] at hc
    exact ⟨fun h => hd (h ▸ hc), fun h => hs (h ▸ hc)⟩

/-- General form of the default-output derivation: when the input ends in
a genuine final extension (a dot followed by dot-free, separator-free
characters), only that extension is stripped before `.pdf` is appended. -/
theorem deriveOutput_eq (stem e : String) (hd : '.' ∉ e.data) (hs : '/' ∉ e.data) :
    deriveOutput (stem ++ "." ++ e) = stem ++ ".pdf" := by
  unfold deriveOutput trimSuffixS
  rw [extS_eq stem e hd hs]
  have hdata : (stem ++ "." ++ e).data = stem.data ++ '.' :: e.data := by
    simp [String.data_append]
  rw [hdata, trimSuffixL_append]

/-- Claim C1: for every conversion request whose output path is empty, the
output path is derived from the input path by stripping only the final
extension and appending ".pdf"; in particular "guide.md" yields
"guide.pdf" and "a.b.md" yields "a.b.pdf". -/
theorem c1_output_derivation :
    (∀ cfg : Config, cfg.OutputFile = "" →
      ∀ stem e : String, '.' ∉ e.data → '/' ∉ e.data →
        cfg.InputFile = stem ++ "." ++ e →
        (resolveOutput cfg).OutputFile = stem ++ ".pdf")
    ∧ deriveOutput "guide.md" = "guide.pdf"
    ∧ deriveOutput "a.b.md" = "a.b.pdf" := by
  refine ⟨?_, by decide, by decide⟩
  intro cfg hout stem e hd hs hin
  unfold resolveOutput
  rw [if_pos hout]
  simp only [hin]
  exact deriveOutput_eq stem e hd hs

/-- Witness for C1 at a concrete request: input "a.b.md", empty output. -/
theorem c1_output_derivation_witness :
    (resolveOutput ⟨"a.b.md", "", "A4", 12, false, false⟩).OutputFile = "a.b.pdf" :=
  c1_output_derivation.1 ⟨"a.b.md", "", "A4", 12, false, false⟩ rfl "a.b" "md"
    (by decide) (by decide) rfl

/-- `main.go` lines 119-122 and 155-158: the font size the generated
stylesheet assigns to a heading of the given level.  The template sets
`h1` to base+8, `h2` to base+6, `h3` to base+4, `h4` to base+2, and has
no rule at all for deeper levels (`none`). -/
def headingCssSize (base : ℚ) : Nat → Option ℚ
  | 1 => some (base + 8)
  | 2 => some (base + 6)
  | 3 => some (base + 4)
  | 4 => some (base + 2)
  | _ => none

/-- The size formula asserted by the specification: base + (4 − level) × 2,
floored at the base size. -/
def specHeadingSize (base : ℚ) (level : Nat) : ℚ :=
  max base (base + (4 - (level : ℚ)) * 2)

/-- Claim C2 (counterexample): at base size 12 the stylesheet gives a
level-1 heading size 20, not the claimed 12 + (4 − 1) × 2 = 18. -/
theorem c2_heading_formula_cex :
    headingCssSize 12 1 ≠ some (specHeadingSize 12 1) := by
  unfold headingCssSize specHeadingSize
  norm_num

/-- Claim C2 (amended): for heading levels 1 through 4 the generated
stylesheet sets the font size to base + (5 − level) × 2; for level 5 and
deeper it sets no font size at all. -/
theorem c2_heading_formula (base : ℚ) (L : Nat) :
    (1 ≤ L → L ≤ 4 → headingCssSize base L = some (base + (5 - (L : ℚ)) * 2))
    ∧ (5 ≤ L → headingCssSize base L = none) := by
  constructor
  · intro h1 h4
    interval_cases L <;> simp [headingCssSize] <;> norm_num
  · intro h5
    match L, h5 with
    | n + 5, _ => rfl

/-- Witness for C2 (amended) at base 12, level 1 and level 5. -/
theorem c2_heading_formula_witness :
    headingCssSize 12 1 = some (12 + (5 - (1 : ℚ)) * 2)
    ∧ headingCssSize 12 5 = none :=
  ⟨(c2_heading_formula 12 1).1 (by norm_num) (by norm_num),
   (c2_heading_formula 12 5).2 (by norm_num)⟩

/-- Claim C3 (counterexample): the stylesheet assigns no size at all to a
level-5 heading, rather than the claimed floor size 12. -/
theorem c3_level5_cex : headingCssSize 12 5 ≠ some 12 := by
  unfold headingCssSize
  simp

/-- Claim C3 (amended): with base font size 12 a level-1 heading is given
font size 20 by the generated stylesheet, while a level-5 heading is given
no explicit font size (it falls back to the renderer's default). -/
theorem c3_base12_sizes :
    headingCssSize 12 1 = some 20 ∧ headingCssSize 12 5 = none := by
  unfold headingCssSize
  norm_num

/-- Model of Go `strings.ReplaceAll` on character lists: scan left to
right, replacing each non-overlapping occurrence of `pat` by `rep`.  The
fuel argument (instantiated with the length of the scanned list) keeps the
recursion structural; the program only ever calls it with a non-empty
pattern, which the guard also requires. -/
def replaceAllFuel (pat rep : List Char) : Nat → List Char → List Char
  | 0, s => s
  | _ + 1, [] => []
  | fuel + 1, c :: rest =>
    if pat ≠ [] ∧ pat.isPrefixOf (c :: rest) then
      rep ++ replaceAllFuel pat rep fuel ((c :: rest).drop pat.length)
    else c :: replaceAllFuel pat rep fuel rest

/-- `strings.ReplaceAll` on strings. -/
def replaceAllS (s pat rep : String) : String :=
  ⟨replaceAllFuel pat.data rep.data s.data.length s.data⟩

/-- `main.go` lines 216-231: the tag-removal loop of `stripHTML`, carrying
the `inTag` boolean; characters inside `<...>` spans are dropped, the
brackets themselves included. -/
def stripTagsGo : List Char → Bool → List Char
  | [], _ => []
  | c :: rest, inTag =>
    if c = '<' then stripTagsGo rest true
    else if c = '>' then stripTagsGo rest false
    else if inTag then stripTagsGo rest inTag
    else c :: stripTagsGo rest inTag

/-- `main.go` lines 214-242: `stripHTML` removes tag spans, then replaces
the five HTML entities, in the source's order. -/
def stripHTML (s : String) : String :=
  replaceAllS (replaceAllS (replaceAllS (replaceAllS (replaceAllS
    ⟨stripTagsGo s.data false⟩
    "&lt;" "<") "&gt;" ">") "&amp;" "&") "&quot;" "\"") "&#39;" "\x27"

/-- The specification's wording of the tag-removal pass: a single-pass
scan over the characters tracking an inside-tag boolean, keeping only
characters seen outside a tag. -/
def scanStep : Bool × List Char → Char → Bool × List Char
  | (inside, acc), c =>
    if c = '<' then (true, acc)
    else if c = '>' then (false, acc)
    else if inside then (inside, acc)
    else (inside, acc ++ [c])

/-- Spec-side tag removal: fold the scan over the input, starting outside
any tag, and keep the accumulated text. -/
def removeTagSpans (s : String) : String :=
  ⟨(s.data.foldl scanStep (false, [])).2⟩

/-- Spec-side entity decoding: exactly the five entities the specification
lists, each decoded to its literal character. -/
def decodeEntities (s : String) : String :=
  replaceAllS (replaceAllS (replaceAllS (replaceAllS (replaceAllS s
    "&lt;" "<") "&gt;" ">") "&amp;" "&") "&quot;" "\"") "&#39;" "\x27"

/-- The plain-text reduction as the specification describes it: remove all
tag spans, then decode the fixed entity set. -/
def stripHTMLSpec (s : String) : String := decodeEntities (removeTagSpans s)

theorem foldl_scanStep (l : List Char) :
    ∀ (inTag : Bool) (acc : List Char),
      (l.foldl scanStep (inTag, acc)).2 = acc ++ stripTagsGo l inTag := by
  induction l with
  | nil => intro inTag acc; simp [stripTagsGo]
  | cons c rest ih =>
    intro inTag acc
    by_cases h1 : c = '<'
    · simp [scanStep, stripTagsGo, h1, ih]
    · by_cases h2 : c = '>'
      · simp [scanStep, stripTagsGo, h1, h2, ih]
      · cases inTag
        · simp [scanStep, stripTagsGo, h1, h2, ih]
        · simp [scanStep, stripTagsGo, h1, h2, ih]

/-- Claim C4: the plain-text reduction removes all tag spans via a single
pass with an inside-tag boolean and then decodes exactly the five listed
entities; in particular "<p>A &amp; B</p>" reduces to "A & B". -/
theorem c4_stripHTML_spec :
    (∀ s : String, stripHTML s = stripHTMLSpec s)
    ∧ stripHTML "<p>A &amp; B</p>" = "A & B" := by
  constructor
  · intro s
    simp only [stripHTML, stripHTMLSpec, decodeEntities, removeTagSpans,
      foldl_scanStep, List.nil_append]
  · decide

/-- The external world `convertMarkdownToPDF` interacts with: whether the
input file is readable, whether the temporary HTML file is writable,
which renderer binaries `exec.LookPath` finds, and whether running a
found binary succeeds. -/
structure Env where
  readOk : Bool
  writeOk : Bool
  avail : String → Bool
  runOk : String → Bool

/-- A filesystem/process operation performed during a run. -/
inductive FsOp
  | readFile (path : String)
  | writeFile (path : String)
  | removeFile (path : String)
  | execCmd (bin : String)
deriving DecidableEq

/-- Outcome of `convertMarkdownToPDF`, one per `return` site. -/
inductive ConvOutcome
  | ok | readError | writeError | wkFailed | chromeFailed | noRenderer
deriving DecidableEq

/-- `main.go` lines 183-188: the browser binary locations tried after
wkhtmltopdf, in source order. -/
def chromePaths : List String :=
  ["/Applications/Google Chrome.app/Contents/MacOS/Google Chrome",
   "/Applications/Chromium.app/Contents/MacOS/Chromium",
   "chromium",
   "google-chrome"]

/-- `main.go` line 163: the temporary HTML file path, derived from the
output path by stripping its extension and appending "_tmp.html". -/
def tmpHTMLPath (out : String) : String :=
  trimSuffixS out (extS out) ++ "_tmp.html"

/-- Whether `pat` occurs as a contiguous run somewhere in the second
list (used to state that an error message contains a hint). -/
def containsSub (pat : List Char) : List Char → Bool
  | [] => pat.isPrefixOf []
  | c :: rest => pat.isPrefixOf (c :: rest) || containsSub pat rest

/-- `main.go` line 203: the fatal message when no renderer is found. -/
def noRendererMsg : String :=
  "no PDF renderer found. Please install wkhtmltopdf or Chrome:\n  brew install wkhtmltopdf"

/-- The error message attached to each failing outcome (the `%w`-wrapped
cause is elided; the literal context prefix is kept). -/
def errorMessageOf : ConvOutcome → Option String
  | .ok => none
  | .readError => some "failed to read input file"
  | .writeError => some "failed to write HTML file"
  | .wkFailed => some "wkhtmltopdf failed"
  | .chromeFailed => some "chrome headless failed"
  | .noRenderer => some noRendererMsg

/-- `main.go` lines 87-211: `convertMarkdownToPDF` as outcome plus
filesystem trace.  Reading the input comes first; on success the
temporary HTML file is written, and from then on every exit path ends
with its deferred removal.  wkhtmltopdf is tried first; otherwise the
first available browser path is used; otherwise the run fails with the
no-renderer error. -/
def convertRun (cfg : Config) (env : Env) : ConvOutcome × List FsOp :=
  if env.readOk = false then (.readError, [.readFile cfg.InputFile])
  else
    let tmp := tmpHTMLPath cfg.OutputFile
    if env.writeOk = false then
      (.writeError, [.readFile cfg.InputFile, .writeFile tmp])
    else if env.avail "wkhtmltopdf" then
      ((if env.runOk "wkhtmltopdf" then ConvOutcome.ok else ConvOutcome.wkFailed),
       [.readFile cfg.InputFile, .writeFile tmp, .execCmd "wkhtmltopdf", .removeFile tmp])
    else
      match chromePaths.find? env.avail with
      | some p =>
        ((if env.runOk p then ConvOutcome.ok else ConvOutcome.chromeFailed),
         [.readFile cfg.InputFile, .writeFile tmp, .execCmd p, .removeFile tmp])
      | none => (.noRenderer, [.readFile cfg.InputFile, .writeFile tmp, .removeFile tmp])

/-- The renderer the selection logic settles on: wkhtmltopdf when
available, otherwise the first available browser path. -/
def selectRenderer (avail : String → Bool) : Option String :=
  if avail "wkhtmltopdf" then some "wkhtmltopdf" else chromePaths.find? avail

/-- The renderer binaries actually invoked during a run, in order. -/
def invokedRenderers (cfg : Config) (env : Env) : List String :=
  (convertRun cfg env).2.filterMap fun op =>
    match op with
    | .execCmd b => some b
    | _ => none

/-- Claim C5: renderer selection tries wkhtmltopdf first, then the
browser paths in listed order; exactly the selected renderer is invoked,
and when none is available the run fails with a message carrying an
installation hint. -/
theorem c5_renderer_selection (cfg : Config) (env : Env)
    (hr : env.readOk = true) (hw : env.writeOk = true) :
    invokedRenderers cfg env = (selectRenderer env.avail).toList
    ∧ selectRenderer env.avail =
        (if env.avail "wkhtmltopdf" then some "wkhtmltopdf"
         else if env.avail "/Applications/Google Chrome.app/Contents/MacOS/Google Chrome" then
           some "/Applications/Google Chrome.app/Contents/MacOS/Google Chrome"
         else if env.avail "/Applications/Chromium.app/Contents/MacOS/Chromium" then
           some "/Applications/Chromium.app/Contents/MacOS/Chromium"
         else if env.avail "chromium" then some "chromium"
         else if env.avail "google-chrome" then some "google-chrome"
         else none)
    ∧ (selectRenderer env.avail = none →
        (convertRun cfg env).1 = ConvOutcome.noRenderer
        ∧ errorMessageOf (convertRun cfg env).1 = some noRendererMsg
        ∧ containsSub "Please install wkhtmltopdf".data noRendererMsg.data = true) := by
  refine ⟨?_, ?_, ?_⟩
  · unfold invokedRenderers convertRun selectRenderer
    cases hwk : env.avail "wkhtmltopdf"
    · rcases hf : chromePaths.find? env.avail with _ | p <;>
        simp [hr, hw, hwk, hf, List.filterMap]
    · simp [hr, hw, hwk, List.filterMap]
  · unfold selectRenderer chromePaths
    cases h0 : env.avail "wkhtmltopdf" <;>
      cases h1 : env.avail "/Applications/Google Chrome.app/Contents/MacOS/Google Chrome" <;>
      cases h2 : env.avail "/Applications/Chromium.app/Contents/MacOS/Chromium" <;>
      cases h3 : env.avail "chromium" <;>
      cases h4 : env.avail "google-chrome" <;>
      simp [List.find?, h0, h1, h2, h3, h4]
  · intro hnone
    unfold selectRenderer at hnone
    cases hwk : env.avail "wkhtmltopdf"
    · rw [hwk] at hnone
      simp only [Bool.false_eq_true, if_false] at hnone
      refine ⟨?_, ?_, by decide⟩ <;> simp [convertRun, hr, hw, hwk, hnone, errorMessageOf]
    · rw [hwk] at hnone
      simp at hnone

/-- Witness for C5: a world with no renderer installed selects none and
the run fails with the no-renderer outcome. -/
theorem c5_renderer_selection_witness :
    invokedRenderers ⟨"doc.md", "doc.pdf", "A4", 12, false, false⟩
        ⟨true, true, fun _ => false, fun _ => false⟩
      = (selectRenderer (fun _ => false)).toList
    ∧ (convertRun ⟨"doc.md", "doc.pdf", "A4", 12, false, false⟩
        ⟨true, true, fun _ => false, fun _ => false⟩).1 = ConvOutcome.noRenderer :=
  ⟨(c5_renderer_selection _ _ rfl rfl).1,
   ((c5_renderer_selection _ _ rfl rfl).2.2 (by decide)).1⟩

/-- Claim C10: when wkhtmltopdf is present but its run fails, the
conversion fails with the wkhtmltopdf error and no browser fallback is
ever invoked. -/
theorem c10_wk_failure_no_fallback (cfg : Config) (env : Env)
    (hr : env.readOk = true) (hw : env.writeOk = true)
    (ha : env.avail "wkhtmltopdf" = true) (hx : env.runOk "wkhtmltopdf" = false) :
    (convertRun cfg env).1 = ConvOutcome.wkFailed
    ∧ errorMessageOf (convertRun cfg env).1 = some "wkhtmltopdf failed"
    ∧ invokedRenderers cfg env = ["wkhtmltopdf"]
    ∧ ∀ p ∈ chromePaths, FsOp.execCmd p ∉ (convertRun cfg env).2 := by
  refine ⟨?_, ?_, ?_, ?_⟩
  · simp [convertRun, hr, hw, ha, hx]
  · simp [convertRun, hr, hw, ha, hx, errorMessageOf]
  · simp [invokedRenderers, convertRun, hr, hw, ha, hx, List.filterMap]
  · intro p hp hmem
    simp [convertRun, hr, hw, ha, hx] at hmem
    subst hmem
    revert hp
    decide

/-- Witness for C10: wkhtmltopdf installed but failing at run time. -/
theorem c10_wk_failure_no_fallback_witness :
    (convertRun ⟨"doc.md", "doc.pdf", "A4", 12, false, false⟩
        ⟨true, true, fun b => b == "wkhtmltopdf", fun _ => false⟩).1
      = ConvOutcome.wkFailed
    ∧ invokedRenderers ⟨"doc.md", "doc.pdf", "A4", 12, false, false⟩
        ⟨true, true, fun b => b == "wkhtmltopdf", fun _ => false⟩
      = ["wkhtmltopdf"] :=
  ⟨(c10_wk_failure_no_fallback _ _ rfl rfl (by decide) rfl).1,
   (c10_wk_failure_no_fallback _ _ rfl rfl (by decide) rfl).2.2.1⟩

/-- Outcome of `main` (`main.go` lines 30-56): help and version exit
early and successfully, a missing input path is a fatal usage error, and
otherwise the run ends in the conversion's outcome. -/
inductive MainOutcome
  | helpShown | versionShown | usageError | convFailed (o : ConvOutcome) | success
deriving DecidableEq

/-- `main.go` lines 30-56: `main` as outcome plus filesystem trace.  The
help, version and missing-input checks all come before any filesystem
operation; the output path is resolved only after them. -/
def mainRun (cfg : Config) (env : Env) : MainOutcome × List FsOp :=
  if cfg.ShowHelp then (.helpShown, [])
  else if cfg.ShowVer then (.versionShown, [])
  else if cfg.InputFile = "" then (.usageError, [])
  else
    let r := convertRun (resolveOutput cfg) env
    ((if r.1 = ConvOutcome.ok then .success else .convFailed r.1), r.2)

/-- Process exit code of each outcome: `os.Exit(0)` for help/version and
the success path, `log.Fatal`'s exit code 1 otherwise. -/
def exitCode : MainOutcome → Nat
  | .helpShown => 0
  | .versionShown => 0
  | .usageError => 1
  | .convFailed _ => 1
  | .success => 0

/-- Claim C6: with neither help nor version set, an empty input path is a
fatal usage error: the run exits non-zero having performed no filesystem
operation at all. -/
theorem c6_empty_input_fatal (cfg : Config) (env : Env)
    (hh : cfg.ShowHelp = false) (hv : cfg.ShowVer = false)
    (hi : cfg.InputFile = "") :
    (mainRun cfg env).1 = MainOutcome.usageError
    ∧ exitCode (mainRun cfg env).1 ≠ 0
    ∧ (mainRun cfg env).2 = [] := by
  simp [mainRun, hh, hv, hi, exitCode]

/-- Witness for C6: a request with empty input path and no flags. -/
theorem c6_empty_input_fatal_witness :
    (mainRun ⟨"", "", "A4", 12, false, false⟩
        ⟨true, true, fun _ => false, fun _ => false⟩).1 = MainOutcome.usageError
    ∧ (mainRun ⟨"", "", "A4", 12, false, false⟩
        ⟨true, true, fun _ => false, fun _ => false⟩).2 = [] :=
  ⟨(c6_empty_input_fatal _ _ rfl rfl rfl).1,
   (c6_empty_input_fatal _ _ rfl rfl rfl).2.2⟩

/-- Claim C7: an unreadable input makes the conversion fail with the read
error, and the only filesystem operation performed is the failed read: no
file is written, removed or executed, so no output and no temporary file
are produced. -/
theorem c7_unreadable_input (cfg : Config) (env : Env)
    (hr : env.readOk = false) :
    (convertRun cfg env).1 = ConvOutcome.readError
    ∧ errorMessageOf (convertRun cfg env).1 = some "failed to read input file"
    ∧ (convertRun cfg env).2 = [FsOp.readFile cfg.InputFile]
    ∧ ∀ p : String, FsOp.writeFile p ∉ (convertRun cfg env).2
      ∧ FsOp.removeFile p ∉ (convertRun cfg env).2
      ∧ FsOp.execCmd p ∉ (convertRun cfg env).2 := by
  refine ⟨?_, ?_, ?_, ?_⟩ <;> simp [convertRun, hr, errorMessageOf]

/-- Witness for C7: a concrete request against an unreadable input. -/
theorem c7_unreadable_input_witness :
    (convertRun ⟨"doc.md", "doc.pdf", "A4", 12, false, false⟩
        ⟨false, true, fun _ => false, fun _ => false⟩).1 = ConvOutcome.readError
    ∧ (convertRun ⟨"doc.md", "doc.pdf", "A4", 12, false, false⟩
        ⟨false, true, fun _ => false, fun _ => false⟩).2 = [FsOp.readFile "doc.md"] :=
  ⟨(c7_unreadable_input _ _ rfl).1, (c7_unreadable_input _ _ rfl).2.2.1⟩

/-- Claim C8: once the input is read and the temporary HTML file is
written, its path is the output path with the extension stripped and
"_tmp.html" appended (so it sits alongside the output), and every exit
path of the conversion ends by removing it, whatever the outcome. -/
theorem c8_temp_html_lifecycle (cfg : Config) (env : Env)
    (hr : env.readOk = true) (hw : env.writeOk = true) :
    tmpHTMLPath cfg.OutputFile
      = trimSuffixS cfg.OutputFile (extS cfg.OutputFile) ++ "_tmp.html"
    ∧ FsOp.writeFile (tmpHTMLPath cfg.OutputFile) ∈ (convertRun cfg env).2
    ∧ ∃ pre, (convertRun cfg env).2
        = pre ++ [FsOp.removeFile (tmpHTMLPath cfg.OutputFile)] := by
  refine ⟨rfl, ?_, ?_⟩
  · cases hwk : env.avail "wkhtmltopdf"
    · rcases hf : chromePaths.find? env.avail with _ | p <;>
        simp [convertRun, hr, hw, hwk, hf]
    · simp [convertRun, hr, hw, hwk]
  · cases hwk : env.avail "wkhtmltopdf"
    · rcases hf : chromePaths.find? env.avail with _ | p
      · exact ⟨[FsOp.readFile cfg.InputFile, FsOp.writeFile (tmpHTMLPath cfg.OutputFile)],
          by simp [convertRun, hr, hw, hwk, hf]⟩
      · exact ⟨[FsOp.readFile cfg.InputFile, FsOp.writeFile (tmpHTMLPath cfg.OutputFile),
          FsOp.execCmd p], by simp [convertRun, hr, hw, hwk, hf]⟩
    · exact ⟨[FsOp.readFile cfg.InputFile, FsOp.writeFile (tmpHTMLPath cfg.OutputFile),
        FsOp.execCmd "wkhtmltopdf"], by simp [convertRun, hr, hw, hwk]⟩

/-- Witness for C8: a readable input, writable temp file, no renderer. -/
theorem c8_temp_html_lifecycle_witness :
    FsOp.writeFile (tmpHTMLPath "doc.pdf")
      ∈ (convertRun ⟨"doc.md", "doc.pdf", "A4", 12, false, false⟩
          ⟨true, true, fun _ => false, fun _ => false⟩).2
    ∧ ∃ pre, (convertRun ⟨"doc.md", "doc.pdf", "A4", 12, false, false⟩
          ⟨true, true, fun _ => false, fun _ => false⟩).2
        = pre ++ [FsOp.removeFile (tmpHTMLPath "doc.pdf")] :=
  ⟨(c8_temp_html_lifecycle _ _ rfl rfl).2.1,
   (c8_temp_html_lifecycle _ _ rfl rfl).2.2⟩

/-- A cell emitted by the line classifier of the direct-PDF variant. -/
inductive LineCell
  | blank
  | heading (level : Nat) (text : String)
  | bullet (text : String)
  | paragraph (text : String)
deriving DecidableEq

/-- Count of leading hash marks of a line. -/
def countHashes : List Char → Nat
  | [] => 0
  | c :: rest => if c = '#' then countHashes rest + 1 else 0

/-- Modelled from the spec: the line classifier of the direct-PDF variant
(spec section 4.3) is not under `src/` — the checkout only contains the
HTML-and-external-renderer variant — so it is modelled from the
specification's words.  The input is a line already trimmed of
surrounding whitespace; the rules apply in the spec's order: empty line,
leading hash marks, a bullet marker "- " or "* " whose two-character
prefix is replaced by a bullet glyph plus two spaces, and otherwise a
verbatim paragraph. -/
def classifyLineL : List Char → LineCell
  | [] => .blank
  | c :: rest =>
    if c = '#' then .heading (countHashes (c :: rest)) ⟨c :: rest⟩
    else if (c = '-' ∨ c = '*') ∧ rest.head? = some ' ' then
      .bullet ⟨'•' :: ' ' :: ' ' :: rest.tail⟩
    else .paragraph ⟨c :: rest⟩

/-- The classifier on strings. -/
def classifyLine (line : String) : LineCell := classifyLineL line.data

/-- Claim C9: lines opening with "- " or "* " both become a bullet cell
whose marker is replaced by a bullet glyph plus two spaces, identically
for the two markers; a line opening with "-" not followed by a space
(or a lone "-") produces no bullet cell. -/
theorem c9_bullet_detection :
    (∀ rest : List Char,
      classifyLine ⟨'-' :: ' ' :: rest⟩ = LineCell.bullet ⟨'•' :: ' ' :: ' ' :: rest⟩
      ∧ classifyLine ⟨'*' :: ' ' :: rest⟩ = LineCell.bullet ⟨'•' :: ' ' :: ' ' :: rest⟩
      ∧ classifyLine ⟨'*' :: ' ' :: rest⟩ = classifyLine ⟨'-' :: ' ' :: rest⟩)
    ∧ (∀ (c : Char) (rest : List Char), c ≠ ' ' →
        ∀ t, classifyLine ⟨'-' :: c :: rest⟩ ≠ LineCell.bullet t)
    ∧ (∀ t, classifyLine "-" ≠ LineCell.bullet t)
    ∧ classifyLine "- item" = LineCell.bullet "•  item"
    ∧ classifyLine "* item" = LineCell.bullet "•  item"
    ∧ classifyLine "-item" = LineCell.paragraph "-item" := by
  refine ⟨?_, ?_, ?_, by decide, by decide, by decide⟩
  · intro rest
    refine ⟨?_, ?_, ?_⟩ <;> simp [classifyLine, classifyLineL]
  · intro c rest hc t
    simp [classifyLine, classifyLineL, hc]
  · intro t
    simp [classifyLine, classifyLineL]

/-- Witness for C9: the marker "-" followed by a non-space character is
not classified as a bullet. -/
theorem c9_bullet_detection_witness :
    classifyLine ⟨'-' :: 'x' :: []⟩ ≠ LineCell.bullet "•  x" :=
  c9_bullet_detection.2.1 'x' [] (by decide) "•  x"

end Md2Pdf
